import Mathlib

/-!
Verification of obsidian-gemini-transcriber.

Shallow embedding of the core subsystems of the repository:
* `src/obsidian/database.py` — the processed-files ledger (`ProcessedFilesDatabase`);
* `src/audio/vad.py` — speech-interval grouping and audio splitting (`VADProcessor`);
* `src/api/retry.py` — retry with backoff and error classification;
* `src/transcription/service.py` — the transcription orchestrator.

Conventions used throughout:
* Python floats (seconds) are modelled as `ℚ`; Python ints as `Int`/`Nat`.
* The file system is modelled explicitly: for hashing, a map from path to the
  current content (`String → Option Nat`, `none` = absent/unreadable); for the
  on-disk presence of segment files, a `List String` of existing paths; for the
  raw persisted store, an association list from path to raw file text.
* MD5 is an opaque content fingerprint, passed in as a parameter `md5 : Nat → Nat`.
* Raising an exception is modelled with `Option`/`Except`.
* Side effects that no claim observes (logging, `time.sleep` backoff waits,
  timestamps beyond the strings stored in the document) are threaded as plain
  data (`now : String`) or elided.
-/

namespace Transcriber

/-! ### Ledger data model (`src/obsidian/database.py`) -/

/-- `SCHEMA_VERSION` from `database.py`. -/
def SCHEMA_VERSION : String := "1.0.0"

/-- `ProcessingStatus` enum from `database.py`. -/
inductive ProcessingStatus
  | pending
  | processing
  | completed
  | failed
  | skipped
deriving DecidableEq

/-- One value of the `files` map: the per-file record written by
`add_processed_file` / `add_failed_file`.  `hash` is `None` when the file could
not be hashed; `outputs` and `metadata` sub-dicts are flattened into fields. -/
structure FileEntry where
  hash : Option Nat
  status : ProcessingStatus
  processed_at : Option String
  updated_at : Option String
  transcription : Option String
  summary : Option String
  duration_seconds : Option ℚ
  file_size_bytes : Option Int
  error : Option String
deriving DecidableEq

/-- The `statistics` sub-document. -/
structure Statistics where
  total_processed : Int
  total_failed : Int
  total_size_bytes : Int
  total_duration_seconds : ℚ
deriving DecidableEq

/-- The whole JSON document held in `self.data`.  `version` is `none` when the
`"version"` key is absent. -/
structure DBData where
  version : Option String
  created_at : Option String
  last_updated : Option String
  statistics : Statistics
  files : List (String × FileEntry)
deriving DecidableEq

/-- Python `max(0, n)` on ints, written out so closed evaluations reduce. -/
def max0 (n : Int) : Int := if n < 0 then 0 else n

/-- Python `max(0, q)` on floats (modelled as `ℚ`). -/
def max0q (q : ℚ) : ℚ := if q < 0 then 0 else q

/-- Lookup in a Python dict modelled as an association list. -/
def alGet {α : Type} : List (String × α) → String → Option α
  | [], _ => none
  | (k, v) :: rest, key => if k = key then some v else alGet rest key

/-- `dict[key] = v` (overwrite-or-append). -/
def alSet {α : Type} : List (String × α) → String → α → List (String × α)
  | [], key, v => [(key, v)]
  | (k, w) :: rest, key, v =>
    if k = key then (key, v) :: rest else (k, w) :: alSet rest key v

/-- `del dict[key]`. -/
def alErase {α : Type} (m : List (String × α)) (key : String) : List (String × α) :=
  m.filter (fun kv => decide (kv.1 ≠ key))

/-- `ProcessedFilesDatabase._initialize_schema`. -/
def initialize_schema (now : String) : DBData :=
  { version := some SCHEMA_VERSION
  , created_at := some now
  , last_updated := some now
  , statistics :=
      { total_processed := 0
      , total_failed := 0
      , total_size_bytes := 0
      , total_duration_seconds := 0 }
  , files := [] }

/-- What `load` finds at `db_path`: the file is missing, `open`/`json.load`
raised, or a JSON document parsed.  `isEmpty` is the Python truthiness of the
parsed dict (`not self.data`). -/
inductive LoadSource
  | missing
  | unparsable
  | doc (isEmpty : Bool) (d : DBData)

/-- `ProcessedFilesDatabase.load`: reinitialize on a missing file, a parse
error, an empty document, or a document without a `"version"` key; otherwise
keep the loaded data as is (the version string itself is never compared). -/
def load (src : LoadSource) (now : String) : DBData :=
  match src with
  | .missing => initialize_schema now
  | .unparsable => initialize_schema now
  | .doc isEmpty d =>
    if isEmpty = true ∨ d.version = none then initialize_schema now else d

/-- `ProcessedFilesDatabase.get_file_hash`: hash the current content of the
file; `none` models the `open`/read raising (file vanished, unreadable). -/
def get_file_hash (md5 : Nat → Nat) (fs : String → Option Nat) (p : String) : Option Nat :=
  (fs p).map md5

/-- `ProcessedFilesDatabase.is_processed`: entry exists, status is
`completed`, and re-hashing the current content matches the stored hash;
a hashing failure is caught and yields `false`. -/
def is_processed (md5 : Nat → Nat) (fs : String → Option Nat) (db : DBData) (p : String) : Bool :=
  match alGet db.files p with
  | none => false
  | some entry =>
    if entry.status ≠ ProcessingStatus.completed then false
    else
      match get_file_hash md5 fs p with
      | some h => decide (entry.hash = some h)
      | none => false

/-- `ProcessedFilesDatabase.add_processed_file`.  Returns `none` when
`get_file_hash` raises (the wrapper logs and re-raises).  The statistics
updates mirror the source: the failure counter is decremented (floored at 0)
when the prior entry was `failed`, and the success counter is incremented
exactly when the prior entry was *not* `failed` (`if not was_failed`).
`if duration_seconds:` / `if file_size_bytes:` are Python truthiness tests, so
`0` values are skipped.  The final `self.save()` updates `last_updated`. -/
def add_processed_file (md5 : Nat → Nat) (fs : String → Option Nat) (db : DBData)
    (file_path markdown_path : String) (summary_path : Option String)
    (duration_seconds : Option ℚ) (file_size_bytes : Option Int) (now : String) :
    Option DBData :=
  match get_file_hash md5 fs file_path with
  | none => none
  | some file_hash =>
    let was_failed : Bool :=
      match alGet db.files file_path with
      | some old => decide (old.status = ProcessingStatus.failed)
      | none => false
    let stats0 := db.statistics
    let stats1 :=
      if was_failed then { stats0 with total_failed := max0 (stats0.total_failed - 1) }
      else stats0
    let entry : FileEntry :=
      { hash := some file_hash
      , status := ProcessingStatus.completed
      , processed_at := some now
      , updated_at := some now
      , transcription := some markdown_path
      , summary := summary_path
      , duration_seconds := duration_seconds
      , file_size_bytes := file_size_bytes
      , error := none }
    let files1 := alSet db.files file_path entry
    let stats2 :=
      if was_failed then stats1
      else { stats1 with total_processed := stats1.total_processed + 1 }
    let stats3 :=
      match duration_seconds with
      | some d =>
        if d ≠ 0 then { stats2 with total_duration_seconds := stats2.total_duration_seconds + d }
        else stats2
      | none => stats2
    let stats4 :=
      match file_size_bytes with
      | some b =>
        if b ≠ 0 then { stats3 with total_size_bytes := stats3.total_size_bytes + b }
        else stats3
      | none => stats3
    some { db with files := files1, statistics := stats4, last_updated := some now }

/-- `ProcessedFilesDatabase.add_failed_file`.  The hash is best effort
(`none` if hashing raises); the success counter is decremented (floored at 0)
when the prior entry was `completed`, and the failure counter is incremented
exactly when the prior entry was *not* `completed`. -/
def add_failed_file (md5 : Nat → Nat) (fs : String → Option Nat) (db : DBData)
    (file_path error_msg : String) (file_size_bytes : Option Int) (now : String) : DBData :=
  let file_hash := get_file_hash md5 fs file_path
  let was_processed : Bool :=
    match alGet db.files file_path with
    | some old => decide (old.status = ProcessingStatus.completed)
    | none => false
  let stats0 := db.statistics
  let stats1 :=
    if was_processed then { stats0 with total_processed := max0 (stats0.total_processed - 1) }
    else stats0
  let entry : FileEntry :=
    { hash := file_hash
    , status := ProcessingStatus.failed
    , processed_at := none
    , updated_at := some now
    , transcription := none
    , summary := none
    , duration_seconds := none
    , file_size_bytes := file_size_bytes
    , error := some error_msg }
  let stats2 :=
    if was_processed then stats1
    else { stats1 with total_failed := stats1.total_failed + 1 }
  { db with files := alSet db.files file_path entry, statistics := stats2, last_updated := some now }

/-- `ProcessedFilesDatabase.remove_processed_file`: delete the entry and
reverse its contribution to the statistics according to its last status
(metadata contributions are reversed under Python truthiness, floored at 0). -/
def remove_processed_file (db : DBData) (file_path : String) (now : String) : DBData :=
  match alGet db.files file_path with
  | none => db
  | some entry =>
    let stats0 := db.statistics
    let stats :=
      if entry.status = ProcessingStatus.completed then
        let s1 := { stats0 with total_processed := max0 (stats0.total_processed - 1) }
        let s2 :=
          match entry.duration_seconds with
          | some d =>
            if d ≠ 0 then
              { s1 with total_duration_seconds := max0q (s1.total_duration_seconds - d) }
            else s1
          | none => s1
        let s3 :=
          match entry.file_size_bytes with
          | some b =>
            if b ≠ 0 then { s2 with total_size_bytes := max0 (s2.total_size_bytes - b) }
            else s2
          | none => s2
        s3
      else if entry.status = ProcessingStatus.failed then
        { stats0 with total_failed := max0 (stats0.total_failed - 1) }
      else stats0
    { db with files := alErase db.files file_path, statistics := stats, last_updated := some now }

/-- `ProcessedFilesDatabase.save` writes the serialized document over
`db_path` with `open(db_path, "w")` — an in-place truncating write, not a
write-to-temporary-then-rename.  A completed save leaves the full
serialization at the path. -/
def save_full (store : List (String × String)) (db_path serialized : String) :
    List (String × String) :=
  alSet store db_path serialized

/-- A save interrupted after `k` characters: `open(.., "w")` has already
truncated the file, and only a prefix of the serialization has been flushed,
so the path now holds `serialized.take k` in place of the prior contents. -/
def save_interrupted (store : List (String × String)) (db_path serialized : String) (k : Nat) :
    List (String × String) :=
  alSet store db_path (serialized.take k)

/-! ### Speech-interval grouping and audio splitting (`src/audio/vad.py`) -/

/-- The loop body of `VADProcessor._group_segments`: `(cs, ce)` is the current
group (`current_start`, `current_end`); each further timestamp `(s, e)` either
extends the current group (`e - cs ≤ max_duration`) or closes it and seeds a
new one; the final group is emitted unconditionally. -/
def groupRec (max_duration : ℚ) : ℚ → ℚ → List (ℚ × ℚ) → List (ℚ × ℚ)
  | cs, ce, [] => [(cs, ce)]
  | cs, ce, (s, e) :: rest =>
    if e - cs ≤ max_duration then groupRec max_duration cs e rest
    else (cs, ce) :: groupRec max_duration s e rest

/-- `VADProcessor._group_segments`: empty input yields `[]`; otherwise the
current group is seeded with the first timestamp and the loop above runs over
the remainder. -/
def group_segments (timestamps : List (ℚ × ℚ)) (max_duration : ℚ) : List (ℚ × ℚ) :=
  match timestamps with
  | [] => []
  | (s, e) :: rest => groupRec max_duration s e rest

/-- A speech interval is chronological relative to a left bound `p`:
`p ≤ start ≤ end`, chaining through the list.  This is the shape of the
speech timestamps the VAD collaborator emits (time-ordered, non-overlapping). -/
def chronoFromB (p : ℚ) : List (ℚ × ℚ) → Bool
  | [] => true
  | (s, e) :: rest => decide (p ≤ s) && decide (s ≤ e) && chronoFromB e rest

/-- A time-ordered interval sequence: each interval has `start ≤ end` and
starts no earlier than the previous interval ended. -/
def chronologicalB : List (ℚ × ℚ) → Bool
  | [] => true
  | (s, e) :: rest => decide (s ≤ e) && chronoFromB e rest

/-- Adjacent groups in a list are separated by more than `max_duration`:
merging any two neighbours would exceed the bound.  This is the shape of
`_group_segments` output on chronological input. -/
def separatedL (max_duration : ℚ) : List (ℚ × ℚ) → Prop
  | [] => True
  | [_] => True
  | (s, _) :: (s2, e2) :: rest => max_duration < e2 - s ∧ separatedL max_duration ((s2, e2) :: rest)

/-- A produced audio segment: `(start_time, end_time, segment_path)` as
returned by `VADProcessor.split_audio`. -/
structure Seg where
  start : ℚ
  stop : ℚ
  path : String
deriving DecidableEq

/-- `VADProcessor.split_audio`, with the external collaborators made
explicit: `speech_timestamps` is what `get_speech_timestamps` returned for
this source, `duration` is `get_audio_duration(audio_path)`, and `segPath i`
is the name `_create_audio_segments` gives the `i`-th temporary segment file.
When no speech is detected the whole source is returned as the single
pseudo-segment `(0, duration, audio_path)` — the original file itself, with
no temporary copy made. -/
def split_audio (audio_path : String) (duration : ℚ) (speech_timestamps : List (ℚ × ℚ))
    (max_duration : ℚ) (segPath : Nat → String) : List Seg :=
  if speech_timestamps = [] then [⟨0, duration, audio_path⟩]
  else
    (group_segments speech_timestamps max_duration).enum.map
      (fun ig => ⟨ig.2.1, ig.2.2, segPath ig.1⟩)

/-! ### Retry with backoff (`src/api/retry.py`) -/

/-- `RETRYABLE_ERROR_KEYWORDS` from `src/constants.py`. -/
def RETRYABLE_ERROR_KEYWORDS : List String :=
  ["server", "service", "unavailable", "503", "500", "429", "rate limit", "quota",
   "empty response", "no text content"]

/-- A Python exception as `retry_with_backoff` observes it:
whether it is an instance of `RetryableError`, whether it is the
`TimeoutError` raised by `execute_with_timeout`, and its string form. -/
structure PyError where
  is_retryable_type : Bool
  is_timeout : Bool
  msg : String
deriving DecidableEq

/-- `keyword in error_msg` (Python substring test), on character lists. -/
def charsContain (hay needle : List Char) : Bool :=
  match hay with
  | [] => decide (needle = [])
  | _ :: t => List.isPrefixOf needle hay || charsContain t needle

/-- `is_retryable_error`: a `RetryableError` instance is always retryable;
otherwise the lowercased message (`str(error).lower()`, modelled by lowering
each character) is scanned for the transient-failure keywords. -/
def is_retryable_error (e : PyError) : Bool :=
  e.is_retryable_type ||
    RETRYABLE_ERROR_KEYWORDS.any
      (fun k => charsContain (e.msg.toList.map Char.toLower) k.toList)

/-- What one call of `retry_with_backoff` produces: the operation's value, an
immediately re-raised non-retryable error, or the terminal
`Exception(f"Maximum retries ({max_retries}) reached. Last error: {last_error}")`
wrapping the last observed error after the budget is spent. -/
inductive RetryOutcome (T : Type)
  | ok (v : T)
  | fatal (e : PyError)
  | exhausted (max_retries : Nat) (last : Option PyError)

/-- The `for attempt in range(max_retries)` loop of `retry_with_backoff`.
`f attempt` is the outcome of running `execute_with_timeout(func, timeout)`
on that attempt; backoff sleeps and the `on_retry` observer only log/wait and
are elided.  Returns the outcome together with how many times the operation
was invoked. -/
def retryLoop {T : Type} (f : Nat → Except PyError T) (max_retries : Nat) :
    Nat → Nat → Option PyError → RetryOutcome T × Nat
  | 0, attempt, last => (RetryOutcome.exhausted max_retries last, attempt)
  | remaining + 1, attempt, last =>
    match f attempt with
    | Except.ok v => (RetryOutcome.ok v, attempt + 1)
    | Except.error e =>
      if e.is_timeout then retryLoop f max_retries remaining (attempt + 1) (some e)
      else if is_retryable_error e then retryLoop f max_retries remaining (attempt + 1) (some e)
      else (RetryOutcome.fatal e, attempt + 1)

/-- `retry_with_backoff(func, max_retries, ...)`. -/
def retry_with_backoff {T : Type} (f : Nat → Except PyError T) (max_retries : Nat) :
    RetryOutcome T × Nat :=
  retryLoop f max_retries max_retries 0 none

/-! ### Transcription orchestrator (`src/transcription/service.py`) -/

/-- The two paths `TranscriptionService.transcribe_file` can take. -/
inductive TranscriptionPath
  | direct
  | segmented
deriving DecidableEq

/-- The path decision in `transcribe_file`:
`if use_vad and duration > vad_threshold_seconds: self._transcribe_with_vad(...)
else: self._transcribe_direct(...)`. -/
def transcribe_file_path (use_vad : Bool) (duration vad_threshold_seconds : ℚ) :
    TranscriptionPath :=
  if use_vad = true ∧ vad_threshold_seconds < duration then TranscriptionPath.segmented
  else TranscriptionPath.direct

/-- The inline failure placeholder appended for segment `i` (0-based; the
message shows the 1-based index): `f"[セグメント {i + 1} の文字起こしに失敗: {e}]"`. -/
def placeholder (i : Nat) (e : String) : String :=
  "[セグメント " ++ toString (i + 1) ++ " の文字起こしに失敗: " ++ e ++ "]"

/-- The text appended for segment `i`: the transcription when
`client.transcribe_audio` succeeds, the failure placeholder when it raises. -/
def blockOf (call : Nat → String → Except String String) (i : Nat) (seg : Seg) : String :=
  match call i seg.path with
  | Except.ok t => t
  | Except.error e => placeholder i e

/-- The per-segment loop of `TranscriptionService._transcribe_with_vad`:
transcribe each segment (a failure is caught and replaced by the
placeholder), then — in the `finally` block — delete the segment file from
disk if it exists.  `fs` is the set of files currently on disk; returns the
accumulated transcription blocks and the final file set. -/
def transcribeLoop (call : Nat → String → Except String String) :
    Nat → List Seg → List String → List String × List String
  | _, [], fs => ([], fs)
  | i, seg :: rest, fs =>
    let fs1 := if seg.path ∈ fs then fs.filter (fun q => decide (q ≠ seg.path)) else fs
    let r := transcribeLoop call (i + 1) rest fs1
    (blockOf call i seg :: r.1, r.2)

/-- `TranscriptionService._transcribe_with_vad`, given the segments
`split_audio` returned: run the loop and join the blocks with the blank-line
separator `"\n\n"`. -/
def transcribe_with_vad (call : Nat → String → Except String String)
    (segments : List Seg) (fs : List String) : String × List String :=
  let r := transcribeLoop call 0 segments fs
  (String.intercalate "\n\n" r.1, r.2)

/-! ### Concrete fixtures for witnesses and evaluations -/

/-- A concrete fingerprint function for closed evaluations. -/
def md5id : Nat → Nat := fun n => n

/-- A one-file file system: `/a.mp3` exists with content `7`. -/
def fsC : String → Option Nat := fun p => if p = "/a.mp3" then some 7 else none

/-- A fresh ledger. -/
def dbC0 : DBData := initialize_schema "t0"

/-- The ledger after `add_failed_file("/a.mp3", "network down")`. -/
def dbC1 : DBData := add_failed_file md5id fsC dbC0 "/a.mp3" "network down" none "t1"

/-- The ledger after the subsequent
`add_processed_file("/a.mp3", "/a.md", None, 60, 1000)`. -/
def dbC2 : DBData :=
  match add_processed_file md5id fsC dbC1 "/a.mp3" "/a.md" none (some 60) (some 1000) "t2" with
  | some d => d
  | none => dbC1

/-- A transient server error, as classified by the keyword list. -/
def err503 : PyError :=
  { is_retryable_type := false, is_timeout := false, msg := "503 Service Unavailable" }

/-- A parseable document carrying a foreign schema version with one entry. -/
def entryC9 : FileEntry :=
  { hash := some 1, status := ProcessingStatus.completed, processed_at := none
  , updated_at := none, transcription := none, summary := none
  , duration_seconds := none, file_size_bytes := none, error := none }

/-- A full stored document whose version tag is `0.0.1` (≠ `SCHEMA_VERSION`). -/
def dC9 : DBData :=
  { version := some "0.0.1", created_at := some "c", last_updated := some "u"
  , statistics :=
      { total_processed := 1, total_failed := 0, total_size_bytes := 0
      , total_duration_seconds := 0 }
  , files := [("/a.mp3", entryC9)] }

/-- Three concrete segments for the segmented-transcription witness. -/
def segsC : List Seg := [⟨0, 5, "/tmp/s0.wav"⟩, ⟨5, 12, "/tmp/s1.wav"⟩, ⟨40, 45, "/tmp/s2.wav"⟩]

/-- A remote call that fails on segment 1 (0-based) and succeeds elsewhere. -/
def callC : Nat → String → Except String String :=
  fun i _ => if i = 1 then Except.error "boom" else Except.ok ("text" ++ toString i)

/-! ### Association-list lemmas -/

theorem alGet_alSet {α : Type} (m : List (String × α)) (key : String) (v : α) :
    alGet (alSet m key v) key = some v := by
  induction m with
  | nil => simp [alSet, alGet]
  | cons kv rest ih =>
    obtain ⟨k, w⟩ := kv
    by_cases h : k = key
    · simp [alSet, alGet, h]
    · simp [alSet, alGet, h, ih]

theorem alGet_alErase {α : Type} (m : List (String × α)) (key : String) :
    alGet (alErase m key) key = none := by
  induction m with
  | nil => simp [alErase, alGet]
  | cons kv rest ih =>
    obtain ⟨k, w⟩ := kv
    by_cases h : k = key
    · simpa [alErase, alGet, h] using ih
    · simpa [alErase, alGet, h] using ih

/-! ### Claim C2 — `is_processed` -/

/-- C2: `is_processed p` is true iff a stored entry exists for `p`, its status
is `completed`, and re-hashing the current file content equals the stored
hash; a hashing failure (file vanished) yields `false` rather than an
exception; it is false immediately after `remove_processed_file p`, and true
immediately after a successful `add_processed_file p ...` when the file
content is unchanged. -/
theorem is_processed_spec (md5 : Nat → Nat) (fs : String → Option Nat) (db : DBData)
    (p markdown_path : String) (summary_path : Option String) (dur : Option ℚ)
    (sz : Option Int) (now now2 : String) :
    (is_processed md5 fs db p = true ↔
      ∃ entry, alGet db.files p = some entry ∧ entry.status = ProcessingStatus.completed ∧
        ∃ c, fs p = some c ∧ entry.hash = some (md5 c)) ∧
    (fs p = none → is_processed md5 fs db p = false) ∧
    is_processed md5 fs (remove_processed_file db p now) p = false ∧
    (∀ db2, add_processed_file md5 fs db p markdown_path summary_path dur sz now2 = some db2 →
      is_processed md5 fs db2 p = true) := by
  refine ⟨?_, ?_, ?_, ?_⟩
  · cases h1 : alGet db.files p with
    | none => simp [is_processed, h1]
    | some entry =>
      cases hc : fs p with
      | none => simp [is_processed, get_file_hash, h1, hc]
      | some c =>
        by_cases hst : entry.status = ProcessingStatus.completed
        · simp [is_processed, get_file_hash, h1, hc, hst]
        · simp [is_processed, get_file_hash, h1, hc, hst]
  · intro h
    cases h1 : alGet db.files p with
    | none => simp [is_processed, h1]
    | some entry => simp [is_processed, get_file_hash, h1, h]
  · cases h1 : alGet db.files p with
    | none => simp only [remove_processed_file, h1]; simp [is_processed, h1]
    | some entry =>
      simp only [remove_processed_file, h1]
      simp [is_processed, alGet_alErase]
  · intro db2 hadd
    cases hh : get_file_hash md5 fs p with
    | none => simp [add_processed_file, hh] at hadd
    | some fh =>
      simp only [add_processed_file, hh] at hadd
      obtain rfl := (Option.some.inj hadd).symm
      simp [is_processed, alGet_alSet, hh]

/-- Witness for C2 at a concrete ledger: after the fixture
`add_processed_file` the file reports processed; after removing it, it does
not. -/
theorem is_processed_spec_witness :
    is_processed md5id fsC dbC2 "/a.mp3" = true ∧
    is_processed md5id fsC (remove_processed_file dbC2 "/a.mp3" "t3") "/a.mp3" = false := by
  have h1 := is_processed_spec md5id fsC dbC1 "/a.mp3" "/a.md" none (some 60) (some 1000) "t3" "t2"
  have h2 := is_processed_spec md5id fsC dbC2 "/a.mp3" "/a.md" none (some 60) (some 1000) "t3" "t2"
  refine ⟨h1.2.2.2 dbC2 rfl, h2.2.2.1⟩

/-! ### Claim C1 — counter updates on Failed → Completed -/

/-- C1 (evaluation at the failing input): starting from a fresh ledger,
`add_failed_file "/a.mp3" "network down"` leaves `total_failed = 1`; the
subsequent successful `add_processed_file "/a.mp3" ...` succeeds and leaves
`total_failed = 0` (decremented, as claimed) but `total_processed = 0` — the
success counter is *not* incremented, because the code guards the increment
with `if not was_failed` even though the prior entry was `failed`, not
`completed`.  The claim (and the spec's stated double-counting rule) requires
`total_processed = 1` here. -/
theorem failed_then_success_counters :
    dbC1.statistics.total_failed = 1 ∧
    (add_processed_file md5id fsC dbC1 "/a.mp3" "/a.md" none (some 60) (some 1000) "t2").map
      (fun d => (d.statistics.total_failed, d.statistics.total_processed)) = some (0, 0) := by
  decide

/-! ### Grouping lemmas (`VADProcessor._group_segments`) -/

/-- Every group the loop emits either has span at most `max_duration` (its end
was last set by an extension, which checked exactly that) or is one of the
input intervals (it was seeded and never extended). -/
theorem groupRec_mem (D : ℚ) (ts : List (ℚ × ℚ)) :
    ∀ (rest : List (ℚ × ℚ)) (cs ce : ℚ),
      (ce - cs ≤ D ∨ (cs, ce) ∈ ts) → (∀ x ∈ rest, x ∈ ts) →
      ∀ g ∈ groupRec D cs ce rest, g.2 - g.1 ≤ D ∨ g ∈ ts := by
  intro rest
  induction rest with
  | nil =>
    intro cs ce hcur _ g hg
    simp only [groupRec, List.mem_singleton] at hg
    subst hg
    simpa using hcur
  | cons t rest ih =>
    intro cs ce hcur hsub g hg
    obtain ⟨s, e⟩ := t
    rw [groupRec] at hg
    by_cases h : e - cs ≤ D
    · rw [if_pos h] at hg
      exact ih cs e (Or.inl h)
        (fun x hx => hsub x (List.mem_cons_of_mem _ hx)) g hg
    · rw [if_neg h] at hg
      rcases List.mem_cons.mp hg with rfl | hg2
      · simpa using hcur
      · exact ih s e (Or.inr (hsub (s, e) (List.mem_cons_self _ _)))
          (fun x hx => hsub x (List.mem_cons_of_mem _ hx)) g hg2

/-- On chronological input the loop's output starts with a group whose start
is the current start and whose end is at least the current end. -/
theorem groupRec_head (D : ℚ) :
    ∀ (rest : List (ℚ × ℚ)) (cs ce : ℚ), chronoFromB ce rest = true →
      ∃ E tail, groupRec D cs ce rest = (cs, E) :: tail ∧ ce ≤ E := by
  intro rest
  induction rest with
  | nil =>
    intro cs ce _
    exact ⟨ce, [], rfl, le_refl ce⟩
  | cons t rest ih =>
    intro cs ce h
    obtain ⟨s, e⟩ := t
    rw [chronoFromB] at h
    simp only [Bool.and_eq_true, decide_eq_true_eq] at h
    obtain ⟨⟨h1, h2⟩, h3⟩ := h
    by_cases hc : e - cs ≤ D
    · rw [groupRec, if_pos hc]
      obtain ⟨E, tail, heq, hle⟩ := ih cs e h3
      exact ⟨E, tail, heq, le_trans (le_trans h1 h2) hle⟩
    · rw [groupRec, if_neg hc]
      exact ⟨ce, _, rfl, le_refl ce⟩

/-- On chronological input the loop's output is itself chronological, and
adjacent output groups are separated by more than `max_duration`. -/
theorem groupRec_chrono_sep (D : ℚ) :
    ∀ (rest : List (ℚ × ℚ)) (cs ce : ℚ), cs ≤ ce → chronoFromB ce rest = true →
      chronologicalB (groupRec D cs ce rest) = true ∧ separatedL D (groupRec D cs ce rest) := by
  intro rest
  induction rest with
  | nil =>
    intro cs ce hle _
    constructor
    · simp [groupRec, chronologicalB, chronoFromB, hle]
    · simp [groupRec, separatedL]
  | cons t rest ih =>
    intro cs ce hle h
    obtain ⟨s, e⟩ := t
    rw [chronoFromB] at h
    simp only [Bool.and_eq_true, decide_eq_true_eq] at h
    obtain ⟨⟨h1, h2⟩, h3⟩ := h
    by_cases hc : e - cs ≤ D
    · rw [groupRec, if_pos hc]
      exact ih cs e (le_trans (le_trans hle h1) h2) h3
    · rw [groupRec, if_neg hc]
      obtain ⟨hch, hsep⟩ := ih s e h2 h3
      obtain ⟨E, tail, heq, hE⟩ := groupRec_head D rest s e h3
      rw [heq] at hch hsep ⊢
      rw [chronologicalB] at hch
      simp only [Bool.and_eq_true, decide_eq_true_eq] at hch
      obtain ⟨hsE, htail⟩ := hch
      constructor
      · rw [chronologicalB, chronoFromB]
        simp [hle, h1, hsE, htail]
      · refine ⟨?_, hsep⟩
        have hlt : D < e - cs := lt_of_not_le hc
        linarith

/-- A chronological list whose adjacent elements are separated by more than
`max_duration` is a fixed point of grouping. -/
theorem group_segments_fix (D : ℚ) :
    ∀ (l : List (ℚ × ℚ)), chronologicalB l = true → separatedL D l →
      group_segments l D = l := by
  intro l
  induction l with
  | nil => intro _ _; rfl
  | cons a tl ih =>
    intro hch hsep
    obtain ⟨s, e⟩ := a
    cases tl with
    | nil => simp [group_segments, groupRec]
    | cons b tl2 =>
      obtain ⟨s2, e2⟩ := b
      obtain ⟨hgap, hsep2⟩ := hsep
      rw [chronologicalB] at hch
      simp only [Bool.and_eq_true, decide_eq_true_eq] at hch
      obtain ⟨hse, hcf⟩ := hch
      rw [chronoFromB] at hcf
      simp only [Bool.and_eq_true, decide_eq_true_eq] at hcf
      obtain ⟨⟨hes2, hs2e2⟩, hcf2⟩ := hcf
      have hch2 : chronologicalB ((s2, e2) :: tl2) = true := by
        rw [chronologicalB]
        simp [hs2e2, hcf2]
      have hfix := ih hch2 hsep2
      rw [group_segments] at hfix ⊢
      rw [groupRec, if_neg (by linarith : ¬ e2 - s ≤ D), hfix]

/-! ### Claim C3 — grouping algorithm and span bound -/

/-- C3: for a time-ordered sequence of speech intervals and `max_duration`
`D > 0`, the greedy forward merge emits only groups that either have span
`end - start ≤ D` or are a single input interval passed through unsplit;
empty input yields empty output; and the worked example
`[(0,5),(5,12),(40,45)]` with `D = 20` yields exactly `[(0,12),(40,45)]`. -/
theorem group_segments_spec (ts : List (ℚ × ℚ)) (D : ℚ)
    (hts : chronologicalB ts = true) (hD : 0 < D) :
    (∀ g ∈ group_segments ts D, g.2 - g.1 ≤ D ∨ g ∈ ts) ∧
    group_segments ([] : List (ℚ × ℚ)) D = [] ∧
    group_segments [(0, 5), (5, 12), (40, 45)] 20 = [(0, 12), (40, 45)] := by
  refine ⟨?_, rfl, by norm_num [group_segments, groupRec]⟩
  cases ts with
  | nil => intro g hg; simp [group_segments] at hg
  | cons a rest =>
    obtain ⟨s, e⟩ := a
    intro g hg
    rw [group_segments] at hg
    exact groupRec_mem D ((s, e) :: rest) rest s e
      (Or.inr (List.mem_cons_self _ _))
      (fun x hx => List.mem_cons_of_mem _ hx) g hg

/-- Witness for C3 at the spec's worked example. -/
theorem group_segments_spec_witness :
    chronologicalB [((0 : ℚ), (5 : ℚ)), (5, 12), (40, 45)] = true ∧
    (0 : ℚ) < 20 ∧
    group_segments [(0, 5), (5, 12), (40, 45)] 20 = [(0, 12), (40, 45)] := by
  have h := group_segments_spec [((0 : ℚ), (5 : ℚ)), (5, 12), (40, 45)] 20
    (by decide) (by norm_num)
  exact ⟨by decide, by norm_num, h.2.2⟩

/-! ### Claim C4 — grouping is idempotent -/

/-- C4: grouping is idempotent: on a time-ordered interval sequence with
`max_duration D > 0`, regrouping the output with the same `D` returns the
output unchanged. -/
theorem group_segments_idempotent (ts : List (ℚ × ℚ)) (D : ℚ)
    (hts : chronologicalB ts = true) (hD : 0 < D) :
    group_segments (group_segments ts D) D = group_segments ts D := by
  cases ts with
  | nil => rfl
  | cons a rest =>
    obtain ⟨s, e⟩ := a
    rw [chronologicalB] at hts
    simp only [Bool.and_eq_true, decide_eq_true_eq] at hts
    obtain ⟨hse, hcf⟩ := hts
    obtain ⟨hch, hsep⟩ := groupRec_chrono_sep D rest s e hse hcf
    have hgr : group_segments ((s, e) :: rest) D = groupRec D s e rest := rfl
    rw [hgr]
    exact group_segments_fix D _ hch hsep

/-- Witness for C4 at the spec's worked example. -/
theorem group_segments_idempotent_witness :
    group_segments (group_segments [((0 : ℚ), (5 : ℚ)), (5, 12), (40, 45)] 20) 20 =
      group_segments [((0 : ℚ), (5 : ℚ)), (5, 12), (40, 45)] 20 := by
  exact group_segments_idempotent [((0 : ℚ), (5 : ℚ)), (5, 12), (40, 45)] 20
    (by decide) (by norm_num)

/-! ### Claim C5 — retry budget exhaustion -/

/-- When every attempt fails retryably, the loop runs its full budget and
reports exhaustion wrapping the last error. -/
theorem retryLoop_exhausts {T : Type} (f : Nat → Except PyError T) (errs : Nat → PyError)
    (m : Nat) (hfail : ∀ i, f i = Except.error (errs i))
    (hretry : ∀ i, (errs i).is_timeout = true ∨ is_retryable_error (errs i) = true) :
    ∀ (remaining attempt : Nat) (last : Option PyError), 0 < remaining →
      retryLoop f m remaining attempt last =
        (RetryOutcome.exhausted m (some (errs (attempt + remaining - 1))), attempt + remaining) := by
  intro remaining
  induction remaining with
  | zero => intro attempt last h; exact absurd h (lt_irrefl 0)
  | succ r ih =>
    intro attempt last _
    have hcont : retryLoop f m r (attempt + 1) (some (errs attempt)) =
        (RetryOutcome.exhausted m (some (errs (attempt + (r + 1) - 1))), attempt + (r + 1)) := by
      cases r with
      | zero => rw [retryLoop]; simp
      | succ r2 =>
        rw [ih (attempt + 1) (some (errs attempt)) (Nat.succ_pos r2)]
        have h1 : attempt + 1 + (r2 + 1) - 1 = attempt + (r2 + 1 + 1) - 1 := by omega
        have h2 : attempt + 1 + (r2 + 1) = attempt + (r2 + 1 + 1) := by omega
        rw [h1, h2]
    rw [retryLoop, hfail attempt]
    dsimp only
    rcases hretry attempt with ht | hr
    · rw [if_pos ht, hcont]
    · by_cases ht : (errs attempt).is_timeout = true
      · rw [if_pos ht, hcont]
      · rw [if_neg ht, if_pos hr, hcont]

/-- C5: when every attempt of the operation fails with a retryable error (a
timeout or a transient error), `retry_with_backoff` with budget `max_retries`
invokes the operation exactly `max_retries` times — never a further attempt —
and returns the terminal exhaustion error wrapping the last observed error. -/
theorem retry_budget_exhaustion {T : Type} (f : Nat → Except PyError T) (errs : Nat → PyError)
    (max_retries : Nat) (hm : 0 < max_retries)
    (hfail : ∀ i, f i = Except.error (errs i))
    (hretry : ∀ i, (errs i).is_timeout = true ∨ is_retryable_error (errs i) = true) :
    (retry_with_backoff f max_retries).2 = max_retries ∧
    (retry_with_backoff f max_retries).1 =
      RetryOutcome.exhausted max_retries (some (errs (max_retries - 1))) := by
  have h := retryLoop_exhausts f errs max_retries hfail hretry max_retries 0 none hm
  rw [retry_with_backoff, h]
  simp

/-- Witness for C5: three attempts all failing with a `503` transient error,
run under `max_retries = 3`: exactly 3 invocations, then exhaustion wrapping
the `503` error. -/
theorem retry_budget_exhaustion_witness :
    (retry_with_backoff (fun _ => (Except.error err503 : Except PyError Unit)) 3).2 = 3 ∧
    (retry_with_backoff (fun _ => (Except.error err503 : Except PyError Unit)) 3).1 =
      RetryOutcome.exhausted 3 (some err503) := by
  have hr : is_retryable_error err503 = true := by decide
  have h := retry_budget_exhaustion (fun _ => (Except.error err503 : Except PyError Unit))
    (fun _ => err503) 3 (by omega) (fun _ => rfl)
    (fun _ => Or.inr hr)
  exact h

/-! ### Claim C6 — duration threshold for the segmented path -/

/-- C6 counterexample: the claim says that at `duration` exactly equal to the
threshold the Segmented path is taken; the code compares with strict `>`
(`duration > vad_threshold_seconds`), so at `600 = 600` it takes Direct. -/
theorem transcribe_path_at_threshold_cex :
    transcribe_file_path true 600 600 = TranscriptionPath.direct ∧
    transcribe_file_path true 600 600 ≠ TranscriptionPath.segmented := by
  constructor
  · simp [transcribe_file_path]
  · simp [transcribe_file_path]

/-- C6 (amended): with VAD enabled, a source whose duration is at or below
the threshold takes the Direct path; only a duration strictly above the
threshold takes the Segmented path. -/
theorem transcribe_path_threshold (d t : ℚ) :
    (d ≤ t → transcribe_file_path true d t = TranscriptionPath.direct) ∧
    (t < d → transcribe_file_path true d t = TranscriptionPath.segmented) := by
  constructor
  · intro h
    rw [transcribe_file_path, if_neg]
    intro hc
    exact absurd hc.2 (not_lt.mpr h)
  · intro h
    rw [transcribe_file_path, if_pos ⟨rfl, h⟩]

/-- Witness for C6 (amended) on both sides of the threshold. -/
theorem transcribe_path_threshold_witness :
    transcribe_file_path true 300 600 = TranscriptionPath.direct ∧
    transcribe_file_path true 700 600 = TranscriptionPath.segmented := by
  exact ⟨(transcribe_path_threshold 300 600).1 (by norm_num),
    (transcribe_path_threshold 700 600).2 (by norm_num)⟩

/-! ### Segmented-transcription loop lemmas -/

theorem transcribeLoop_length (call : Nat → String → Except String String) :
    ∀ (segs : List Seg) (i : Nat) (fs : List String),
      (transcribeLoop call i segs fs).1.length = segs.length := by
  intro segs
  induction segs with
  | nil => intro i fs; rfl
  | cons seg rest ih =>
    intro i fs
    simp only [transcribeLoop, List.length_cons]
    rw [ih]

theorem transcribeLoop_get (call : Nat → String → Except String String) :
    ∀ (segs : List Seg) (i j : Nat) (fs : List String) (hj : j < segs.length),
      (transcribeLoop call i segs fs).1[j]? = some (blockOf call (i + j) (segs.get ⟨j, hj⟩)) := by
  intro segs
  induction segs with
  | nil => intro i j fs hj; exact absurd hj (Nat.not_lt_zero j)
  | cons seg rest ih =>
    intro i j fs hj
    cases j with
    | zero => simp [transcribeLoop, List.get]
    | succ j2 =>
      have hj2 : j2 < rest.length := Nat.lt_of_succ_lt_succ hj
      simp only [transcribeLoop, List.getElem?_cons_succ, List.get]
      rw [ih (i + 1) j2 _ hj2]
      have : i + 1 + j2 = i + (j2 + 1) := by omega
      rw [this]

/-! ### Claim C7 — per-segment failure isolation and combining -/

/-- C7: in a segmented transcription where segment `k`'s remote call fails
with error `e` and every other segment succeeds, the combined text is the
blank-line join of exactly one block per segment, in original order: block
`k` is the failure placeholder carrying `k` and `e`, every other block `j`
is that segment's transcribed text — one failure does not abort the rest. -/
theorem segmented_partial_failure (call : Nat → String → Except String String)
    (segs : List Seg) (fs : List String) (k : Nat) (e : String) (texts : Nat → String)
    (hk : k < segs.length)
    (hfail : call k (segs.get ⟨k, hk⟩).path = Except.error e)
    (hok : ∀ j (hj : j < segs.length), j ≠ k →
      call j (segs.get ⟨j, hj⟩).path = Except.ok (texts j)) :
    (transcribeLoop call 0 segs fs).1.length = segs.length ∧
    (transcribeLoop call 0 segs fs).1[k]? = some (placeholder k e) ∧
    (∀ j (hj : j < segs.length), j ≠ k →
      (transcribeLoop call 0 segs fs).1[j]? = some (texts j)) ∧
    (transcribe_with_vad call segs fs).1 =
      String.intercalate "\n\n" (transcribeLoop call 0 segs fs).1 := by
  refine ⟨transcribeLoop_length call segs 0 fs, ?_, ?_, rfl⟩
  · rw [transcribeLoop_get call segs 0 k fs hk]
    simp only [Nat.zero_add, blockOf, hfail]
  · intro j hj hne
    rw [transcribeLoop_get call segs 0 j fs hj]
    simp only [Nat.zero_add, blockOf, hok j hj hne]

/-- Witness for C7: three concrete segments where segment 1 (0-based) fails;
the blocks are `text0`, the placeholder for index 1, `text2`. -/
theorem segmented_partial_failure_witness :
    (transcribeLoop callC 0 segsC []).1.length = 3 ∧
    (transcribeLoop callC 0 segsC []).1[1]? = some (placeholder 1 "boom") ∧
    (transcribeLoop callC 0 segsC []).1[0]? = some "text0" ∧
    (transcribeLoop callC 0 segsC []).1[2]? = some "text2" := by
  have h := segmented_partial_failure callC segsC [] 1 "boom" (fun j => "text" ++ toString j)
    (by decide) rfl (fun j hj hne => by simp [callC, hne])
  exact ⟨h.1, h.2.1, h.2.2.1 0 (by decide) (by decide), h.2.2.1 2 (by decide) (by decide)⟩

/-! ### Claim C10 — no-speech input deletes the original source file -/

/-- C10: when the voice-activity detector reports no speech timestamps,
`split_audio` returns the single pseudo-segment `(0, duration, audio_path)`
whose path is the original source file itself (no temporary copy), and the
segmented loop's per-segment cleanup then removes that path from disk — after
the loop the original source file no longer exists. -/
theorem no_speech_source_deleted (audio_path : String) (duration max_duration : ℚ)
    (segPath : Nat → String) (call : Nat → String → Except String String)
    (fs : List String) (hmem : audio_path ∈ fs) :
    split_audio audio_path duration [] max_duration segPath = [⟨0, duration, audio_path⟩] ∧
    audio_path ∉
      (transcribe_with_vad call (split_audio audio_path duration [] max_duration segPath) fs).2 := by
  constructor
  · rfl
  · simp only [split_audio, if_pos rfl, transcribe_with_vad, transcribeLoop, if_pos hmem]
    simp [List.mem_filter]

/-- Witness for C10: a concrete no-speech source on a one-file disk. -/
theorem no_speech_source_deleted_witness :
    split_audio "/v/rec.mp3" 30 [] 600 (fun i => "/tmp/seg" ++ toString i) =
      [⟨0, 30, "/v/rec.mp3"⟩] ∧
    "/v/rec.mp3" ∉
      (transcribe_with_vad (fun _ _ => Except.ok "text")
        (split_audio "/v/rec.mp3" 30 [] 600 (fun i => "/tmp/seg" ++ toString i))
        ["/v/rec.mp3"]).2 := by
  exact no_speech_source_deleted "/v/rec.mp3" 30 600 (fun i => "/tmp/seg" ++ toString i)
    (fun _ _ => Except.ok "text") ["/v/rec.mp3"] (by decide)

/-! ### Claim C8 — save is not write-replace -/

/-- C8 counterexample: the claim says a save that fails partway leaves the
previously durable contents intact.  `save` opens the db path in `"w"` mode
and writes in place, so a save of `NEWSTATE` interrupted after 3 characters
leaves the path holding `NEW` — the prior durable contents `OLDSTATE` are
gone. -/
theorem save_partial_write_cex :
    alGet (save_interrupted [("db.json", "OLDSTATE")] "db.json" "NEWSTATE" 3) "db.json" ≠
      some "OLDSTATE" := by
  decide

/-- C8 (amended): `save` writes the serialization in place over the db path
(no write-to-temporary-then-rename), so a save interrupted after `k`
characters leaves the path holding the truncated serialization
`serialized.take k`; whenever that truncation differs from the prior durable
contents, the prior contents are no longer what is stored.  (Recovery is by
`load`, which treats an unparsable or structurally invalid store as empty.) -/
theorem save_partial_write (store : List (String × String)) (p old serialized : String)
    (k : Nat) (hold : alGet store p = some old) (hne : serialized.take k ≠ old) :
    alGet (save_interrupted store p serialized k) p = some (serialized.take k) ∧
    alGet (save_interrupted store p serialized k) p ≠ some old := by
  have h := alGet_alSet store p (serialized.take k)
  refine ⟨h, ?_⟩
  show alGet (alSet store p (serialized.take k)) p ≠ some old
  rw [h]
  intro hcontra
  exact hne (Option.some.inj hcontra)

/-- Witness for C8 (amended) at the counterexample's store. -/
theorem save_partial_write_witness :
    alGet (save_interrupted [("db.json", "OLDSTATE")] "db.json" "NEWSTATE" 3) "db.json" =
      some ("NEWSTATE".take 3) ∧
    alGet (save_interrupted [("db.json", "OLDSTATE")] "db.json" "NEWSTATE" 3) "db.json" ≠
      some "OLDSTATE" := by
  exact save_partial_write [("db.json", "OLDSTATE")] "db.json" "OLDSTATE" "NEWSTATE" 3
    (by decide) (by decide)

/-! ### Claim C9 — schema version handling on load -/

/-- C9 counterexample: the claim says a parseable document carrying a version
tag other than `SCHEMA_VERSION` is not retained.  The loader only checks that
a `"version"` key exists; it never compares the value, so a document tagged
`0.0.1` is kept, entries included. -/
theorem load_foreign_version_cex :
    load (LoadSource.doc false dC9) "t0" = dC9 ∧
    dC9.version = some "0.0.1" ∧ dC9.version ≠ some SCHEMA_VERSION ∧ dC9.files ≠ [] := by
  refine ⟨?_, rfl, by decide, by decide⟩
  rw [load, if_neg]
  simp [dC9]

/-- C9 (amended): the loader reinitializes to the empty schema exactly when
the store is missing, unparsable, an empty document, or a document without a
version tag; a document carrying any version tag — foreign or not — is
retained as loaded, entries included. -/
theorem load_version_handling (d : DBData) (now : String) (v : String) :
    (d.version = none → load (LoadSource.doc false d) now = initialize_schema now) ∧
    (d.version = some v → load (LoadSource.doc false d) now = d) ∧
    load (LoadSource.doc true d) now = initialize_schema now ∧
    load LoadSource.missing now = initialize_schema now ∧
    load LoadSource.unparsable now = initialize_schema now := by
  refine ⟨?_, ?_, ?_, rfl, rfl⟩
  · intro h
    rw [load, if_pos (Or.inr h)]
  · intro h
    rw [load, if_neg]
    simp [h]
  · rw [load, if_pos (Or.inl rfl)]

/-- Witness for C9 (amended): the foreign-version fixture is retained; a
missing store reinitializes. -/
theorem load_version_handling_witness :
    load (LoadSource.doc false dC9) "t0" = dC9 ∧
    load LoadSource.missing "t0" = initialize_schema "t0" := by
  have h := load_version_handling dC9 "t0" "0.0.1"
  exact ⟨h.2.1 rfl, h.2.2.2.1⟩

end Transcriber
